import Mathlib

/-!
Shallow embedding of the `dns` repository's caching core: the `Question`/`Answer`
data model and `questionCache` (question_cache.go), and the connection
interceptor `cacheConn` (cache_conn.go, provided unnamed) with its
`Write`/`Read`/`Close` operations.

Go `time.Time` instants and `time.Duration` values are modelled as `Int`
nanosecond counts.  The wire codec (`dnsmessage.Message.Pack`/`Unpack`) is out
of scope per the specification and is threaded through as an explicit
parameter; DNS messages themselves are modelled structurally.
-/

set_option autoImplicit false

deriving instance DecidableEq for Except

namespace DnsCache

/-- Go `time.Second` in nanoseconds. -/
def nsPerSecond : Int := 1000000000

/-- Model of `netip.Addr`: either a 4-byte IPv4 address or a 16-byte IPv6 address
(IPv4-mapped IPv6 addresses are 16-byte addresses, as in `netip`). -/
inductive IPAddr where
  | v4 (bs : List Nat)
  | v6 (bs : List Nat)
  deriving DecidableEq

/-- Model of `netip.Addr.Is4`: true only for 4-byte addresses. -/
def IPAddr.is4 : IPAddr → Bool
  | .v4 _ => true
  | .v6 _ => false

/-- Model of `netip.Addr.Is6`: true only for 16-byte addresses. -/
def IPAddr.is6 : IPAddr → Bool
  | .v4 _ => false
  | .v6 _ => true

/-- Model of `netip.Addr.As4`; in the source it is only ever called under an `Is4`
guard, so the 16-byte branch is never reached there. -/
def IPAddr.as4 : IPAddr → List Nat
  | .v4 bs => bs
  | .v6 _ => []

/-- Model of `netip.Addr.As16`: 16-byte addresses verbatim, 4-byte addresses in
IPv4-mapped form. The source only calls it under an `Is6` guard. -/
def IPAddr.as16 : IPAddr → List Nat
  | .v6 bs => bs
  | .v4 bs => [0, 0, 0, 0, 0, 0, 0, 0, 0, 0, 255, 255] ++ bs

/-- Model of `netip.AddrFrom4`. -/
def addrFrom4 (bs : List Nat) : IPAddr := .v4 bs

/-- Model of `netip.AddrFrom16`. -/
def addrFrom16 (bs : List Nat) : IPAddr := .v6 bs

/-- Constant `dnsmessage.TypeA` (= 1). -/
def typeA : Nat := 1

/-- Constant `dnsmessage.TypeAAAA` (= 28). -/
def typeAAAA : Nat := 28

/-- Model of `dnsmessage.Question`. The name is its `dnsmessage.Name.String()` form,
which renders the stored bytes verbatim (wire names end in a dot; letter case
is preserved). -/
structure DNSQuestion where
  name : String
  qtype : Nat
  qclass : Nat
  deriving DecidableEq

/-- Model of `dnsmessage.ResourceHeader`; `ttl` is the 32-bit seconds field. -/
structure ResourceHeader where
  name : String
  rtype : Nat
  rclass : Nat
  ttl : Nat
  deriving DecidableEq

/-- A `dnsmessage.ResourceBody`: `AResource`, `AAAAResource`, or any other
body type (whose details the cache never inspects). -/
inductive ResourceBody where
  | aRes (addr : List Nat)
  | aaaaRes (addr : List Nat)
  | otherRes (tag : Nat)
  deriving DecidableEq

/-- Model of `dnsmessage.Resource`. The header type and the body variant are
independent, as in Go, where the body is an interface value. -/
structure Resource where
  header : ResourceHeader
  body : ResourceBody
  deriving DecidableEq

/-- The parts of `dnsmessage.Message` the cache reads or writes. -/
structure DNSMessage where
  id : Nat
  response : Bool
  questions : List DNSQuestion
  answers : List Resource
  deriving DecidableEq

/-- The `Question` struct (question_cache.go): the cache key. -/
structure Question where
  fqdn : String
  qtype : Nat
  deriving DecidableEq

/-- Function `newQuestion` (question_cache.go): `Question{FQDN: q.Name.String(), Type: q.Type}`. -/
def newQuestion (q : DNSQuestion) : Question :=
  { fqdn := q.name, qtype := q.qtype }

/-- The `Answer` struct (question_cache.go): the cache value. -/
structure Answer where
  fetchTime : Int
  ttl : Int
  ips : List IPAddr
  deriving DecidableEq

/-- The zero `Answer{}` returned by `Get` on a miss. -/
def zeroAnswer : Answer := { fetchTime := 0, ttl := 0, ips := [] }

/-- Method `Answer.IsExpired`: `a.FetchTime.Add(a.TTL).Before(now)`, i.e. strictly
before the current time. -/
def Answer.IsExpired (a : Answer) (now : Int) : Bool :=
  a.fetchTime + a.ttl < now

/-- The body-extraction step of `newAnswer`'s loop for one resource record:
switch on the header type, type-assert the body, convert to an address. -/
def resourceIP (r : Resource) : Except String IPAddr :=
  if r.header.rtype = typeA then
    match r.body with
    | .aRes bs => .ok (addrFrom4 bs)
    | _ => .error "invalid A record body"
  else if r.header.rtype = typeAAAA then
    match r.body with
    | .aaaaRes bs => .ok (addrFrom16 bs)
    | _ => .error "invalid AAAA record body"
  else
    .error "unsupported record type"

/-- The `newAnswer` loop over `m.Answers`, with its early-error behavior. -/
def resourceIPs : List Resource → Except String (List IPAddr)
  | [] => .ok []
  | r :: rs => do
    let ip ← resourceIP r
    let ips ← resourceIPs rs
    .ok (ip :: ips)

/-- Function `newAnswer` (question_cache.go). `now` stands for its `time.Now()` call. -/
def newAnswer (m : DNSMessage) (now : Int) : Except String Answer :=
  match m.answers with
  | [] => .error "no answers in DNS message"
  | r0 :: _ => do
    let ips ← resourceIPs m.answers
    .ok { fetchTime := now, ttl := (r0.header.ttl : Int) * nsPerSecond, ips := ips }

/-- Lookup in the `map[Question]Answer`, modelled as an association list. -/
def lookupA : List (Question × Answer) → Question → Option Answer
  | [], _ => none
  | (q', a) :: rest, q => if q' = q then some a else lookupA rest q

/-- Go `delete(c.m, q)`. -/
def eraseA : List (Question × Answer) → Question → List (Question × Answer)
  | [], _ => []
  | (q', a) :: rest, q =>
    if q' = q then eraseA rest q else (q', a) :: eraseA rest q

/-- Go `c.m[q] = a`: insert or replace. -/
def insertA (m : List (Question × Answer)) (q : Question) (a : Answer) :
    List (Question × Answer) :=
  (q, a) :: eraseA m q

/-- The `questionCache` struct (question_cache.go): the mapping plus the two counters. -/
structure questionCache where
  m : List (Question × Answer)
  hits : Int
  misses : Int
  deriving DecidableEq

/-- The store with no entries and zeroed counters (`newQuestionCache`). -/
def emptyCache : questionCache := { m := [], hits := 0, misses := 0 }

/-- Result of `questionCache.Get`: the returned pair plus the updated store. -/
structure GetResult where
  answer : Answer
  found : Bool
  state : questionCache
  deriving DecidableEq

/-- Method `questionCache.Get`. `now` stands for the `time.Now()` inside `IsExpired`. -/
def questionCache.Get (c : questionCache) (q : Question) (now : Int) : GetResult :=
  match lookupA c.m q with
  | none =>
    { answer := zeroAnswer, found := false
      state := { c with misses := c.misses + 1 } }
  | some a =>
    if a.IsExpired now then
      { answer := zeroAnswer, found := false
        state := { m := eraseA c.m q, hits := c.hits, misses := c.misses + 1 } }
    else
      { answer := a, found := true, state := { c with hits := c.hits + 1 } }

/-- Method `questionCache.Set`: unconditionally `c.m[q] = a`. -/
def questionCache.Set (c : questionCache) (q : Question) (a : Answer) : questionCache :=
  { c with m := insertA c.m q a }

/-- The 32-bit TTL field written by `buildAnswers`:
`uint32(answer.TTL / time.Second)` — Go `int64` division truncates toward
zero, and the `uint32` conversion keeps the low 32 bits. -/
def ttlSecondsField (ttl : Int) : Nat :=
  ((Int.tdiv ttl nsPerSecond) % (2 ^ 32 : Int)).toNat

/-- The loop body of `buildAnswers` over the cached IPs. -/
def buildAnswersList (q : DNSQuestion) (ttl : Int) : List IPAddr → Except String (List Resource)
  | [] => .ok []
  | ip :: rest =>
    if q.qtype = typeA ∧ ip.is4 = false then
      .error "cached IP address is not the correct type for dns A record"
    else if q.qtype = typeAAAA ∧ ip.is6 = false then
      .error "cached IP address is not the correct type for dns AAAA record"
    else
      let hdr : ResourceHeader :=
        { name := q.name, rtype := q.qtype, rclass := q.qclass, ttl := ttlSecondsField ttl }
      if q.qtype = typeA then do
        let rs ← buildAnswersList q ttl rest
        .ok ({ header := hdr, body := .aRes ip.as4 } :: rs)
      else if q.qtype = typeAAAA then do
        let rs ← buildAnswersList q ttl rest
        .ok ({ header := hdr, body := .aaaaRes ip.as16 } :: rs)
      else
        .error "unsupported record type"

/-- Function `buildAnswers` (cache_conn.go): the DNS answer records for a question,
built from a cached `Answer`. -/
def buildAnswers (q : DNSQuestion) (answer : Answer) : Except String (List Resource) :=
  buildAnswersList q answer.ttl answer.ips

/-- The `cacheConn` struct (cache_conn.go). `hasRealConn` models `realConn != nil`;
`cachedResp`/`cachedPos` model the `bytes.Reader` over the packed response;
`realResp` is the accumulation buffer. `dialCount` counts invocations of the
`dial` factory and `realWrites` logs `(connection number, bytes)` for every
write forwarded to a real connection — ghost instrumentation that changes no
behavior. -/
structure cacheConn where
  hasRealConn : Bool
  dialCount : Nat
  cachedResp : Option (List Nat)
  cachedPos : Nat
  realResp : List Nat
  realWrites : List (Nat × List Nat)
  deriving DecidableEq

/-- A freshly constructed interceptor (`&cacheConn{...}` in Cache.dial). -/
def initialConn : cacheConn := { hasRealConn := false, dialCount := 0, cachedResp := none, cachedPos := 0, realResp := [], realWrites := [] }

/-- The external world `Write` interacts with: the out-of-scope wire codec
(`Unpack`/`Pack`), whether the dial factory succeeds, and the real
connection's write result. -/
structure WriteEnv where
  unpack : List Nat → Option DNSMessage
  pack : DNSMessage → Option (List Nat)
  dialOk : Bool
  realWrite : List Nat → Nat × Option String

/-- Go `c.realConn, err = c.dial()`: one dial-factory invocation. -/
def dialStep (env : WriteEnv) (c : cacheConn) : cacheConn :=
  { c with dialCount := c.dialCount + 1, hasRealConn := env.dialOk }

/-- Result of `cacheConn.Write`: the returned `(n, err)` pair plus the updated
interceptor and the updated shared store. -/
structure WriteOut where
  n : Nat
  err : Option String
  conn : cacheConn
  cache : questionCache
  deriving DecidableEq

/-- Go `return c.realConn.Write(b)` after a successful dial. -/
def forwardWrite (env : WriteEnv) (cache : questionCache) (c : cacheConn) (b : List Nat) : WriteOut :=
  let c' := { c with realWrites := c.realWrites ++ [(c.dialCount, b)] }
  { n := (env.realWrite b).1, err := (env.realWrite b).2, conn := c', cache := cache }

/-- Method `cacheConn.Write` (cache_conn.go). `now` stands for the `time.Now()`
reached inside the store's `Get`. -/
def cacheConn.Write (env : WriteEnv) (cache : questionCache) (c : cacheConn)
    (b : List Nat) (now : Int) : WriteOut :=
  match env.unpack b with
  | none => { n := 0, err := some "unpack dns message to check cache", conn := c, cache := cache }
  | some msg =>
    match msg.questions with
    | [q] =>
      -- Unsupported record type: dial, but fall through to the cache lookup.
      let c1 := if q.qtype ≠ typeA ∧ q.qtype ≠ typeAAAA then dialStep env c else c
      if (q.qtype ≠ typeA ∧ q.qtype ≠ typeAAAA) ∧ env.dialOk = false then
        { n := 0, err := some "dial conn for dns cache with unsupported type", conn := c1, cache := cache }
      else
        let r := cache.Get (newQuestion q) now
        if r.found = false then
          let c2 := dialStep env c1
          if env.dialOk then
            forwardWrite env r.state c2 b
          else
            { n := 0, err := some "dial conn for dns cache on cache miss", conn := c2, cache := r.state }
        else
          match buildAnswers q r.answer with
          | .error e =>
            { n := 0, err := some ("build answers for dns cache on cache hit: " ++ e), conn := c1, cache := r.state }
          | .ok ans =>
            let msg2 := { msg with response := true, answers := ans }
            match env.pack msg2 with
            | none =>
              { n := 0, err := some "pack dns message for dns cache on cache hit", conn := c1, cache := r.state }
            | some packed =>
              { n := b.length, err := none
                conn := { c1 with cachedResp := some packed, cachedPos := 0 }
                cache := r.state }
    | _ =>
      -- `len(msg.Questions) != 1`: dial and forward verbatim.
      let c1 := dialStep env c
      if env.dialOk then
        forwardWrite env cache c1 b
      else
        { n := 0, err := some "dial conn for dns cache with multiple questions", conn := c1, cache := cache }

/-- Result of `cacheConn.Read`: `(n, err)`, the bytes placed in the caller's
buffer, and the updated interceptor. -/
structure ReadOut where
  n : Nat
  bytes : List Nat
  err : Option String
  conn : cacheConn
  deriving DecidableEq

/-- Method `cacheConn.Read` (cache_conn.go). `realRead` is the outcome of the real
connection's `Read` into the caller's buffer (bytes delivered, error);
`bufCap` is the caller's buffer capacity, used by the `bytes.Reader` branch. -/
def cacheConn.Read (realRead : List Nat × Option String) (bufCap : Nat) (c : cacheConn) : ReadOut :=
  match c.cachedResp with
  | some resp =>
    let remaining := resp.drop c.cachedPos
    if remaining.isEmpty then
      { n := 0, bytes := [], err := some "EOF", conn := c }
    else
      let chunk := remaining.take bufCap
      { n := chunk.length, bytes := chunk, err := none
        conn := { c with cachedPos := c.cachedPos + chunk.length } }
  | none =>
    if c.hasRealConn = false then
      { n := 0, bytes := [], err := some "read from conn on cache miss without a real connection", conn := c }
    else
      match realRead.2 with
      | some e => { n := realRead.1.length, bytes := realRead.1, err := some e, conn := c }
      | none =>
        { n := realRead.1.length, bytes := realRead.1, err := none
          conn := { c with realResp := c.realResp ++ realRead.1 } }

/-- Go `errors.Join` of the body error and the deferred `capture` of the real
connection's close error. -/
def joinErr : Option String → Option String → Option String
  | none, e => e
  | some a, none => some a
  | some a, some b => some (a ++ "; " ++ b)

/-- The wrapped close error produced by `capture(&mErr, c.realConn.Close, ...)`. -/
def wrapCloseErr (e : String) : String := "close real conn: " ++ e

/-- Result of `cacheConn.Close`: the joint error, the updated shared store,
and a ghost flag recording whether `questionCache.Set` was invoked. -/
structure CloseOut where
  err : Option String
  cache : questionCache
  didSet : Bool
  deriving DecidableEq

/-- Method `cacheConn.Close` (cache_conn.go). `unpack` is the out-of-scope codec,
`closeErr` the real connection's close result, `now` the `time.Now()` of
`newAnswer`/`IsExpired`. -/
def cacheConn.Close (unpack : List Nat → Option DNSMessage) (closeErr : Option String)
    (cache : questionCache) (c : cacheConn) (now : Int) : CloseOut :=
  if c.hasRealConn = false then
    { err := none, cache := cache, didSet := false }
  else
    let closeE := closeErr.map wrapCloseErr
    if c.realResp.isEmpty then
      { err := joinErr none closeE, cache := cache, didSet := false }
    else
      match unpack c.realResp with
      | none =>
        { err := joinErr (some "unpack response to cache on close") closeE, cache := cache, didSet := false }
      | some msg =>
        match msg.questions with
        | [q] =>
          match newAnswer msg now with
          | .error e =>
            { err := joinErr (some ("build new answer to cache on close: " ++ e)) closeE
              cache := cache, didSet := false }
          | .ok a =>
            if a.IsExpired now then
              { err := joinErr none closeE, cache := cache, didSet := false }
            else
              { err := joinErr none closeE, cache := cache.Set (newQuestion q) a, didSet := true }
        | _ => { err := joinErr none closeE, cache := cache, didSet := false }

/-- The three interleavings of one `Set(q, a)` with one `Get(q)`, at the
granularity of the store's critical sections: `Get` reads the map under the
read lock, and (only when the observed entry is expired) re-acquires the
write lock and deletes key `q` — two separate critical sections. -/
inductive GSOrder where
  | setFirst
  | setMid
  | setLast
  deriving DecidableEq

/-- The read-lock section of `Get`: observe the current entry for `q`. -/
def getObserve (c : questionCache) (q : Question) : Option Answer :=
  lookupA c.m q

/-- The remainder of `Get` after the read-lock section, applied to the store
as it stands then: branch on the observation; the eviction branch deletes
whatever entry key `q` currently has. -/
def getFinish (c : questionCache) (q : Question) (observed : Option Answer) (now : Int) : questionCache :=
  match observed with
  | none => { c with misses := c.misses + 1 }
  | some a =>
    if a.IsExpired now then
      { m := eraseA c.m q, hits := c.hits, misses := c.misses + 1 }
    else
      { c with hits := c.hits + 1 }

/-- One concurrent `Get(q)` and one concurrent `Set(q, a)` on the same store,
run in the given interleaving of their critical sections. -/
def runGetSet (c : questionCache) (q : Question) (a : Answer) (now : Int) : GSOrder → questionCache
  | .setFirst =>
    let c1 := c.Set q a
    getFinish c1 q (getObserve c1 q) now
  | .setMid =>
    let obs := getObserve c q
    let c1 := c.Set q a
    getFinish c1 q obs now
  | .setLast =>
    let obs := getObserve c q
    let c1 := getFinish c q obs now
    c1.Set q a

/-- A resource record of one of the two supported address kinds: header type
A with an `AResource` body, or header type AAAA with an `AAAAResource` body. -/
def supportedRecord (r : Resource) : Prop :=
  (r.header.rtype = typeA ∧ ∃ bs, r.body = .aRes bs) ∨
  (r.header.rtype = typeAAAA ∧ ∃ bs, r.body = .aaaaRes bs)

instance (r : Resource) : Decidable (supportedRecord r) := by
  unfold supportedRecord
  rcases r with ⟨h, b⟩
  rcases b with bs | bs | t <;> simp <;> infer_instance

/-- The address carried by a supported address record. -/
def recordAddr (r : Resource) : IPAddr :=
  match r.body with
  | .aRes bs => .v4 bs
  | .aaaaRes bs => .v6 bs
  | .otherRes _ => .v4 []

/-! ## Lemmas about the store's mapping -/

theorem lookupA_eraseA (m : List (Question × Answer)) (q : Question) :
    lookupA (eraseA m q) q = none := by
  induction m with
  | nil => rfl
  | cons p rest ih =>
    rcases p with ⟨q', a⟩
    by_cases h : q' = q
    · simpa [eraseA, h] using ih
    · simpa [eraseA, lookupA, h] using ih

theorem lookupA_insertA (m : List (Question × Answer)) (q : Question) (a : Answer) :
    lookupA (insertA m q a) q = some a := by
  simp [insertA, lookupA]

/-! ## Claim theorems -/

/-- C1 (amended): `Get` returns the stored answer with `found = true` iff an
entry is present and not expired; a present-but-expired entry is evicted as a
side effect, `found = false` is returned, and subsequent `Get`s for the same
key no longer find it without a new `Set`; an absent key reports `false`.
Every call increments exactly one of the two monotonically non-decreasing
counters: hits when found non-expired, misses otherwise.  Expiration boundary
per the code: an entry is expired for a `Get` performed strictly after
`fetchTime + TTL`; a `Get` at or before that instant still finds it. -/
theorem questionCache.Get_spec (c : questionCache) (q : Question) (now : Int) :
    (∀ a, lookupA c.m q = some a → a.IsExpired now = false →
      c.Get q now = ⟨a, true, { c with hits := c.hits + 1 }⟩) ∧
    (∀ a, lookupA c.m q = some a → a.IsExpired now = true →
      c.Get q now = ⟨zeroAnswer, false, ⟨eraseA c.m q, c.hits, c.misses + 1⟩⟩ ∧
      lookupA (c.Get q now).state.m q = none ∧
      ∀ now', ((c.Get q now).state.Get q now').found = false) ∧
    (lookupA c.m q = none →
      c.Get q now = ⟨zeroAnswer, false, { c with misses := c.misses + 1 }⟩) ∧
    ((c.Get q now).state.hits + (c.Get q now).state.misses = c.hits + c.misses + 1) ∧
    (c.hits ≤ (c.Get q now).state.hits ∧ c.misses ≤ (c.Get q now).state.misses) ∧
    ((c.Get q now).found = true ↔ ∃ a, lookupA c.m q = some a ∧ a.IsExpired now = false) ∧
    (∀ a : Answer, a.IsExpired now = true ↔ a.fetchTime + a.ttl < now) := by
  have hexp : ∀ a : Answer, a.IsExpired now = true ↔ a.fetchTime + a.ttl < now := by
    intro a
    simp [Answer.IsExpired]
  rcases hL : lookupA c.m q with _ | a0
  · refine ⟨?_, ?_, ?_, ?_, ?_, ?_, hexp⟩
    · intro a ha
      simp at ha
    · intro a ha
      simp at ha
    · intro _
      simp [questionCache.Get, hL]
    · simp [questionCache.Get, hL]
      try omega
    · simp [questionCache.Get, hL]
      try omega
    · simp [questionCache.Get, hL]
  · rcases hE : a0.IsExpired now with _ | _
    · refine ⟨?_, ?_, ?_, ?_, ?_, ?_, hexp⟩
      · intro a ha _
        injection ha with ha
        subst ha
        simp [questionCache.Get, hL, hE]
      · intro a ha htrue
        injection ha with ha
        subst ha
        rw [hE] at htrue
        simp at htrue
      · intro h
        simp at h
      · simp [questionCache.Get, hL, hE]
        try omega
      · simp [questionCache.Get, hL, hE]
        try omega
      · simp [questionCache.Get, hL, hE]
    · refine ⟨?_, ?_, ?_, ?_, ?_, ?_, hexp⟩
      · intro a ha hfalse
        injection ha with ha
        subst ha
        rw [hE] at hfalse
        simp at hfalse
      · intro a ha _
        injection ha with ha
        subst ha
        have hget : c.Get q now = ⟨zeroAnswer, false, ⟨eraseA c.m q, c.hits, c.misses + 1⟩⟩ := by
          simp [questionCache.Get, hL, hE]
        refine ⟨hget, ?_, ?_⟩
        · rw [hget]
          exact lookupA_eraseA c.m q
        · intro now'
          rw [hget]
          simp [questionCache.Get, lookupA_eraseA]
      · intro h
        simp at h
      · simp [questionCache.Get, hL, hE]
        try omega
      · simp [questionCache.Get, hL, hE]
        try omega
      · simp [questionCache.Get, hL, hE]

/-- C1 (counterexample to the claim as stated): with an entry fetched at time
0 with TTL 5 ns, a `Get` performed exactly at `fetchTime + TTL` = 5 still
returns `found = true` and does not evict — the claim says a `Get` at that
instant returns not-found and evicts. -/
theorem questionCache.Get_boundary_counterexample :
    (questionCache.Get ⟨[(⟨"example.com.", 1⟩, ⟨0, 5, []⟩)], 0, 0⟩ ⟨"example.com.", 1⟩ 5).found = true ∧
    lookupA (questionCache.Get ⟨[(⟨"example.com.", 1⟩, ⟨0, 5, []⟩)], 0, 0⟩ ⟨"example.com.", 1⟩ 5).state.m
      ⟨"example.com.", 1⟩ = some ⟨0, 5, []⟩ := by
  decide

/-- C1 witness: a live entry (TTL 5, queried at time 3) is found and counted
as a hit. -/
theorem questionCache.Get_spec_witness :
    questionCache.Get ⟨[(⟨"example.com.", 1⟩, ⟨0, 5, []⟩)], 0, 0⟩ ⟨"example.com.", 1⟩ 3 =
      ⟨⟨0, 5, []⟩, true, ⟨[(⟨"example.com.", 1⟩, ⟨0, 5, []⟩)], 0 + 1, 0⟩⟩ :=
  (questionCache.Get_spec ⟨[(⟨"example.com.", 1⟩, ⟨0, 5, []⟩)], 0, 0⟩ ⟨"example.com.", 1⟩ 3).1
    ⟨0, 5, []⟩ (by decide) (by decide)

/-- C2 (amended): `Set` is never a no-op — it unconditionally inserts or
replaces the entry, even when the answer is already expired at call time (the
expiry guard lives in the interceptor's `Close`, not in the store).  A
subsequent `Get` at or after the `Set` time still reports not-found for an
already-expired answer, evicting the just-stored entry, so at the `Get`
interface the observable result matches the claim. -/
theorem questionCache.Set_expired_spec (c : questionCache) (q : Question) (a : Answer)
    (tSet tGet : Int) (hexp : a.IsExpired tSet = true) (hle : tSet ≤ tGet) :
    lookupA (c.Set q a).m q = some a ∧
    ((c.Set q a).Get q tGet).found = false ∧
    lookupA ((c.Set q a).Get q tGet).state.m q = none ∧
    ((c.Set q a).Get q tGet).state.misses = c.misses + 1 := by
  have hl : lookupA (c.Set q a).m q = some a := lookupA_insertA c.m q a
  have hexp' : a.IsExpired tGet = true := by
    simp only [Answer.IsExpired, decide_eq_true_eq] at hexp ⊢
    exact lt_of_lt_of_le hexp hle
  have hget := (questionCache.Get_spec (c.Set q a) q tGet).2.1 a hl hexp'
  refine ⟨hl, ?_, hget.2.1, ?_⟩
  · rw [hget.1]
  · rw [hget.1]
    simp [questionCache.Set]

/-- C2 (counterexample to the claim as stated): storing an answer that is
already expired at call time 100 (`fetchTime + TTL = 5 < 100`) is not a
no-op: the store's mapping changes and now holds the dead entry. -/
theorem questionCache.Set_expired_counterexample :
    Answer.IsExpired ⟨0, 5, []⟩ 100 = true ∧
    lookupA ((questionCache.Set emptyCache ⟨"example.com.", 1⟩ ⟨0, 5, []⟩).m)
      ⟨"example.com.", 1⟩ = some ⟨0, 5, []⟩ := by
  decide

/-- C2 witness: concrete run of the amended statement at `Set` time 100,
`Get` time 120. -/
theorem questionCache.Set_expired_spec_witness :
    lookupA ((questionCache.Set emptyCache ⟨"example.com.", 1⟩ ⟨0, 5, []⟩).m)
      ⟨"example.com.", 1⟩ = some ⟨0, 5, []⟩ ∧
    (((questionCache.Set emptyCache ⟨"example.com.", 1⟩ ⟨0, 5, []⟩)).Get
      ⟨"example.com.", 1⟩ 120).found = false :=
  have h := questionCache.Set_expired_spec emptyCache ⟨"example.com.", 1⟩ ⟨0, 5, []⟩
    100 120 (by decide) (by decide)
  ⟨h.1, h.2.1⟩

/-! ## Lemmas about `newAnswer` -/

theorem resourceIP_ok_of_supported (r : Resource) (h : supportedRecord r) :
    resourceIP r = .ok (recordAddr r) := by
  rcases h with ⟨ht, bs, hb⟩ | ⟨ht, bs, hb⟩
  · simp [resourceIP, ht, hb, recordAddr, addrFrom4]
  · simp [resourceIP, ht, hb, recordAddr, addrFrom16, typeA, typeAAAA]

theorem supported_of_resourceIP_ok (r : Resource) (ip : IPAddr) (h : resourceIP r = .ok ip) :
    supportedRecord r := by
  rcases r with ⟨⟨n, rt, rc, t⟩, body⟩
  by_cases h1 : rt = typeA
  · rcases body with bs | bs | tag
    · exact Or.inl ⟨h1, bs, rfl⟩
    · simp [resourceIP, h1] at h
    · simp [resourceIP, h1] at h
  · by_cases h2 : rt = typeAAAA
    · rcases body with bs | bs | tag
      · simp [resourceIP, h1, h2, typeA, typeAAAA] at h
      · exact Or.inr ⟨h2, bs, rfl⟩
      · simp [resourceIP, h1, h2, typeA, typeAAAA] at h
    · simp [resourceIP, h1, h2] at h

theorem resourceIPs_ok_of_all (rs : List Resource) (h : ∀ r ∈ rs, supportedRecord r) :
    resourceIPs rs = .ok (rs.map recordAddr) := by
  induction rs with
  | nil => rfl
  | cons r rest ih =>
    have hr := resourceIP_ok_of_supported r (h r (List.mem_cons_self r rest))
    have hrest := ih fun x hx => h x (List.mem_cons_of_mem r hx)
    simp [resourceIPs, hr, hrest, Bind.bind, Except.bind]

theorem all_supported_of_resourceIPs_ok (rs : List Resource) (ips : List IPAddr)
    (h : resourceIPs rs = .ok ips) : ∀ r ∈ rs, supportedRecord r := by
  induction rs generalizing ips with
  | nil => intro r hr; simp at hr
  | cons r rest ih =>
    intro x hx
    rcases h1 : resourceIP r with e | ip
    · simp [resourceIPs, h1, Bind.bind, Except.bind] at h
    · rcases h2 : resourceIPs rest with e | ips'
      · simp [resourceIPs, h1, h2, Bind.bind, Except.bind] at h
      · rcases List.mem_cons.mp hx with rfl | hx'
        · exact supported_of_resourceIP_ok x ip h1
        · exact ih ips' h2 x hx'

theorem newAnswer_ok_shape (m : DNSMessage) (now : Int) (a : Answer)
    (h : newAnswer m now = .ok a) :
    a.fetchTime = now ∧ a.ips = m.answers.map recordAddr ∧
    (∀ r0 rs, m.answers = r0 :: rs → a.ttl = (r0.header.ttl : Int) * nsPerSecond) ∧
    m.answers ≠ [] ∧ ∀ r ∈ m.answers, supportedRecord r := by
  rcases hm : m.answers with _ | ⟨r0, rest⟩
  · rw [newAnswer, hm] at h
    simp at h
  · rw [newAnswer, hm] at h
    rcases hips : resourceIPs (r0 :: rest) with e | ips
    · rw [hips] at h
      simp [Bind.bind, Except.bind] at h
    · rw [hips] at h
      simp only [Bind.bind, Except.bind, Except.ok.injEq] at h
      subst h
      have hsup : ∀ r ∈ r0 :: rest, supportedRecord r :=
        all_supported_of_resourceIPs_ok _ _ hips
      have hmap := resourceIPs_ok_of_all _ hsup
      rw [hips] at hmap
      injection hmap with hmap
      refine ⟨rfl, hmap, ?_, by simp, hsup⟩
      intro r0' rs' hm'
      injection hm' with h1 h2
      subst h1
      rfl

theorem newAnswer_ok_iff (m : DNSMessage) (now : Int) :
    (∃ a, newAnswer m now = .ok a) ↔
      (m.answers ≠ [] ∧ ∀ r ∈ m.answers, supportedRecord r) := by
  constructor
  · rintro ⟨a, ha⟩
    have := newAnswer_ok_shape m now a ha
    exact ⟨this.2.2.2.1, this.2.2.2.2⟩
  · rintro ⟨hne, hsup⟩
    rcases hm : m.answers with _ | ⟨r0, rest⟩
    · exact absurd hm hne
    · have hips : resourceIPs (r0 :: rest) = .ok ((r0 :: rest).map recordAddr) := by
        apply resourceIPs_ok_of_all
        rw [← hm]
        exact hsup
      refine ⟨⟨now, (r0.header.ttl : Int) * nsPerSecond, (r0 :: rest).map recordAddr⟩, ?_⟩
      rw [newAnswer, hm, hips]
      rfl

/-! ## Lemmas about `buildAnswers` -/

theorem buildAnswersList_ok_A (q : DNSQuestion) (ttl : Int) (ips : List IPAddr)
    (ht : q.qtype = typeA) (h : ∀ ip ∈ ips, ip.is4 = true) :
    buildAnswersList q ttl ips = .ok (ips.map fun ip =>
      ⟨⟨q.name, q.qtype, q.qclass, ttlSecondsField ttl⟩, .aRes ip.as4⟩) := by
  induction ips with
  | nil => rfl
  | cons ip rest ih =>
    have h4 := h ip (List.mem_cons_self ip rest)
    have hrest := ih fun x hx => h x (List.mem_cons_of_mem ip hx)
    simp [buildAnswersList, ht, h4, hrest, typeA, typeAAAA, Bind.bind, Except.bind]

theorem buildAnswersList_ok_AAAA (q : DNSQuestion) (ttl : Int) (ips : List IPAddr)
    (ht : q.qtype = typeAAAA) (h : ∀ ip ∈ ips, ip.is6 = true) :
    buildAnswersList q ttl ips = .ok (ips.map fun ip =>
      ⟨⟨q.name, q.qtype, q.qclass, ttlSecondsField ttl⟩, .aaaaRes ip.as16⟩) := by
  induction ips with
  | nil => rfl
  | cons ip rest ih =>
    have h6 := h ip (List.mem_cons_self ip rest)
    have hrest := ih fun x hx => h x (List.mem_cons_of_mem ip hx)
    simp [buildAnswersList, ht, h6, hrest, typeA, typeAAAA, Bind.bind, Except.bind]

theorem buildAnswersList_error_A (q : DNSQuestion) (ttl : Int) (ips : List IPAddr)
    (ht : q.qtype = typeA) (h : ∃ ip ∈ ips, ip.is4 = false) :
    ∃ e, buildAnswersList q ttl ips = .error e := by
  induction ips with
  | nil =>
    rcases h with ⟨ip, hip, _⟩
    simp at hip
  | cons ip rest ih =>
    rcases hip4 : ip.is4 with _ | _
    · exact ⟨"cached IP address is not the correct type for dns A record",
        by simp [buildAnswersList, ht, hip4]⟩
    · rcases h with ⟨x, hx, hbad⟩
      rcases List.mem_cons.mp hx with rfl | hx'
      · rw [hip4] at hbad
        cases hbad
      · obtain ⟨e, he⟩ := ih ⟨x, hx', hbad⟩
        refine ⟨e, ?_⟩
        simp [buildAnswersList, ht, hip4, he, typeA, typeAAAA, Bind.bind, Except.bind]

theorem buildAnswersList_error_AAAA (q : DNSQuestion) (ttl : Int) (ips : List IPAddr)
    (ht : q.qtype = typeAAAA) (h : ∃ ip ∈ ips, ip.is6 = false) :
    ∃ e, buildAnswersList q ttl ips = .error e := by
  induction ips with
  | nil =>
    rcases h with ⟨ip, hip, _⟩
    simp at hip
  | cons ip rest ih =>
    rcases hip6 : ip.is6 with _ | _
    · exact ⟨"cached IP address is not the correct type for dns AAAA record",
        by simp [buildAnswersList, ht, hip6, typeA, typeAAAA]⟩
    · rcases h with ⟨x, hx, hbad⟩
      rcases List.mem_cons.mp hx with rfl | hx'
      · rw [hip6] at hbad
        cases hbad
      · obtain ⟨e, he⟩ := ih ⟨x, hx', hbad⟩
        refine ⟨e, ?_⟩
        simp [buildAnswersList, ht, hip6, he, typeA, typeAAAA, Bind.bind, Except.bind]

theorem buildAnswersList_ttl_field (q : DNSQuestion) (ttl : Int) :
    ∀ (ips : List IPAddr) (rs : List Resource), buildAnswersList q ttl ips = .ok rs →
      ∀ r ∈ rs, r.header.ttl = ttlSecondsField ttl := by
  intro ips
  induction ips with
  | nil =>
    intro rs h r hr
    simp [buildAnswersList] at h
    subst h
    simp at hr
  | cons ip rest ih =>
    intro rs h r hr
    unfold buildAnswersList at h
    split at h
    · cases h
    · split at h
      · cases h
      · split at h
        · rcases hrec : buildAnswersList q ttl rest with e | rs'
          · rw [hrec] at h
            simp [Bind.bind, Except.bind] at h
          · rw [hrec] at h
            simp only [Bind.bind, Except.bind, Except.ok.injEq] at h
            subst h
            rcases List.mem_cons.mp hr with rfl | hr'
            · rfl
            · exact ih rs' hrec r hr'
        · split at h
          · rcases hrec : buildAnswersList q ttl rest with e | rs'
            · rw [hrec] at h
              simp [Bind.bind, Except.bind] at h
            · rw [hrec] at h
              simp only [Bind.bind, Except.bind, Except.ok.injEq] at h
              subst h
              rcases List.mem_cons.mp hr with rfl | hr'
              · rfl
              · exact ih rs' hrec r hr'
          · cases h

theorem v4_as4 (ip : IPAddr) (h : ip.is4 = true) : IPAddr.v4 ip.as4 = ip := by
  cases ip
  · rfl
  · simp [IPAddr.is4] at h

theorem v6_as16 (ip : IPAddr) (h : ip.is6 = true) : IPAddr.v6 ip.as16 = ip := by
  cases ip
  · simp [IPAddr.is6] at h
  · rfl

theorem ttlSecondsField_of_range (ttl : Int) (h0 : 0 ≤ ttl)
    (hlt : ttl < 4294967296 * nsPerSecond) :
    (ttlSecondsField ttl : Int) = Int.tdiv ttl nsPerSecond := by
  have hb : (0 : Int) ≤ nsPerSecond := by norm_num [nsPerSecond]
  have hpos : (0 : Int) < nsPerSecond := by norm_num [nsPerSecond]
  have htd : Int.tdiv ttl nsPerSecond = ttl / nsPerSecond := Int.tdiv_eq_ediv h0 hb
  have hq0 : 0 ≤ ttl / nsPerSecond := Int.ediv_nonneg h0 hb
  have hqlt : ttl / nsPerSecond < 4294967296 := by
    rw [Int.ediv_lt_iff_lt_mul hpos]
    exact hlt
  unfold ttlSecondsField
  rw [htd, Int.emod_eq_of_lt hq0 (by norm_num at hqlt ⊢; exact hqlt),
    Int.toNat_of_nonneg hq0]

/-- C10: every resource record produced by `buildAnswers` carries the 32-bit
TTL field `uint32(answer.TTL / time.Second)`: the duration divided by one
second truncating toward zero (`Int.tdiv`), reduced modulo `2^32`.  The field
is always below `2^32` (wrap-around, never saturation), and for an in-range
non-negative TTL it is exactly the number of whole seconds — the sub-second
remainder is discarded. -/
theorem buildAnswers_ttl_spec (q : DNSQuestion) (a : Answer) (rs : List Resource)
    (h : buildAnswers q a = .ok rs) :
    ∀ r ∈ rs,
      r.header.ttl = ttlSecondsField a.ttl ∧
      (r.header.ttl : Int) = (Int.tdiv a.ttl nsPerSecond) % (2 ^ 32 : Int) ∧
      r.header.ttl < 2 ^ 32 ∧
      (0 ≤ a.ttl → a.ttl < 4294967296 * nsPerSecond →
        (r.header.ttl : Int) * nsPerSecond ≤ a.ttl ∧
        a.ttl < ((r.header.ttl : Int) + 1) * nsPerSecond) := by
  intro r hr
  have h1 : r.header.ttl = ttlSecondsField a.ttl :=
    buildAnswersList_ttl_field q a.ttl a.ips rs h r hr
  have hmod : (ttlSecondsField a.ttl : Int) = (Int.tdiv a.ttl nsPerSecond) % (2 ^ 32 : Int) := by
    unfold ttlSecondsField
    exact Int.toNat_of_nonneg (Int.emod_nonneg _ (by norm_num))
  refine ⟨h1, by rw [h1, hmod], ?_, ?_⟩
  · have hlt : (Int.tdiv a.ttl nsPerSecond) % (2 ^ 32 : Int) < 2 ^ 32 :=
      Int.emod_lt_of_pos _ (by norm_num)
    have h2 : (r.header.ttl : Int) < 2 ^ 32 := by
      rw [h1, hmod]
      exact hlt
    exact_mod_cast h2
  · intro hp hlt
    have he : (ttlSecondsField a.ttl : Int) = Int.tdiv a.ttl nsPerSecond :=
      ttlSecondsField_of_range a.ttl hp hlt
    have htd : Int.tdiv a.ttl nsPerSecond = a.ttl / nsPerSecond :=
      Int.tdiv_eq_ediv hp (by norm_num [nsPerSecond])
    rw [h1, he, htd]
    simp only [nsPerSecond]
    omega

/-- C10 witness: a negative cached TTL of −1.5 s yields the record TTL field
4294967295 — division truncates toward zero to −1 and the `uint32`
conversion wraps it around instead of saturating or failing. -/
theorem buildAnswers_ttl_spec_witness :
    ({ name := "example.com.", rtype := 1, rclass := 1, ttl := 4294967295 } : ResourceHeader).ttl
      = ttlSecondsField (-1500000000) ∧
    (Int.tdiv (-1500000000) nsPerSecond) % (2 ^ 32 : Int) = 4294967295 := by
  have h := buildAnswers_ttl_spec ⟨"example.com.", 1, 1⟩
    ⟨0, -1500000000, [IPAddr.v4 [1, 2, 3, 4]]⟩
    [⟨⟨"example.com.", 1, 1, 4294967295⟩, .aRes [1, 2, 3, 4]⟩] (by decide)
  exact ⟨(h _ (List.mem_singleton.mpr rfl)).1, by decide⟩

/-- C7 (amended): for a question of a supported type and an Answer whose
addresses all match the question's type, with at least one address and a TTL
in `[0 s, 2^32 s)`, building the answer records and parsing them back as a
response yields an Answer with the identical ordered address list and a TTL
equal to the original truncated to whole seconds. -/
theorem buildAnswers_roundTrip (q : DNSQuestion) (a : Answer) (now' : Int)
    (ht : q.qtype = typeA ∨ q.qtype = typeAAAA)
    (hmatch : ∀ ip ∈ a.ips,
      (q.qtype = typeA → ip.is4 = true) ∧ (q.qtype = typeAAAA → ip.is6 = true))
    (hne : a.ips ≠ [])
    (h0 : 0 ≤ a.ttl) (hlt : a.ttl < 4294967296 * nsPerSecond) :
    ∃ rs, buildAnswers q a = .ok rs ∧
      ∀ m : DNSMessage, m.answers = rs →
        newAnswer m now' = .ok ⟨now', Int.tdiv a.ttl nsPerSecond * nsPerSecond, a.ips⟩ := by
  have hfield : (ttlSecondsField a.ttl : Int) = Int.tdiv a.ttl nsPerSecond :=
    ttlSecondsField_of_range a.ttl h0 hlt
  rcases ht with htA | ht6
  · have h4 : ∀ ip ∈ a.ips, ip.is4 = true := fun ip h => (hmatch ip h).1 htA
    have hb := buildAnswersList_ok_A q a.ttl a.ips htA h4
    refine ⟨_, hb, ?_⟩
    intro m hm
    have hsup : ∀ r ∈ m.answers, supportedRecord r := by
      rw [hm]
      intro r hrr
      rcases List.mem_map.mp hrr with ⟨ip, hip, rfl⟩
      exact Or.inl ⟨htA, ip.as4, rfl⟩
    have haddr : m.answers.map recordAddr = a.ips := by
      rw [hm, List.map_map]
      have : ∀ ip ∈ a.ips,
          (recordAddr ∘ fun ip =>
            (⟨⟨q.name, q.qtype, q.qclass, ttlSecondsField a.ttl⟩, .aRes ip.as4⟩ : Resource)) ip
            = id ip := by
        intro ip hip
        simp only [Function.comp, recordAddr, id]
        exact v4_as4 ip (h4 ip hip)
      rw [List.map_congr_left this, List.map_id]
    rcases hips : a.ips with _ | ⟨ip0, rest⟩
    · exact absurd hips hne
    · have hm' : m.answers =
          (⟨⟨q.name, q.qtype, q.qclass, ttlSecondsField a.ttl⟩, .aRes ip0.as4⟩ : Resource) ::
            (rest.map fun ip =>
              ⟨⟨q.name, q.qtype, q.qclass, ttlSecondsField a.ttl⟩, .aRes ip.as4⟩) := by
        rw [hm, hips]
        rfl
      have hipsOk := resourceIPs_ok_of_all m.answers hsup
      rw [newAnswer, hm']
      rw [hm'] at hipsOk haddr
      rw [hipsOk]
      simp only [Bind.bind, Except.bind, Except.ok.injEq, Answer.mk.injEq]
      refine ⟨trivial, ?_, ?_⟩
      · show (ttlSecondsField a.ttl : Int) * nsPerSecond = Int.tdiv a.ttl nsPerSecond * nsPerSecond
        rw [hfield]
      · rw [haddr, hips]
  · have h6 : ∀ ip ∈ a.ips, ip.is6 = true := fun ip h => (hmatch ip h).2 ht6
    have hb := buildAnswersList_ok_AAAA q a.ttl a.ips ht6 h6
    refine ⟨_, hb, ?_⟩
    intro m hm
    have hsup : ∀ r ∈ m.answers, supportedRecord r := by
      rw [hm]
      intro r hrr
      rcases List.mem_map.mp hrr with ⟨ip, hip, rfl⟩
      exact Or.inr ⟨ht6, ip.as16, rfl⟩
    have haddr : m.answers.map recordAddr = a.ips := by
      rw [hm, List.map_map]
      have : ∀ ip ∈ a.ips,
          (recordAddr ∘ fun ip =>
            (⟨⟨q.name, q.qtype, q.qclass, ttlSecondsField a.ttl⟩, .aaaaRes ip.as16⟩ : Resource)) ip
            = id ip := by
        intro ip hip
        simp only [Function.comp, recordAddr, id]
        exact v6_as16 ip (h6 ip hip)
      rw [List.map_congr_left this, List.map_id]
    rcases hips : a.ips with _ | ⟨ip0, rest⟩
    · exact absurd hips hne
    · have hm' : m.answers =
          (⟨⟨q.name, q.qtype, q.qclass, ttlSecondsField a.ttl⟩, .aaaaRes ip0.as16⟩ : Resource) ::
            (rest.map fun ip =>
              ⟨⟨q.name, q.qtype, q.qclass, ttlSecondsField a.ttl⟩, .aaaaRes ip.as16⟩) := by
        rw [hm, hips]
        rfl
      have hipsOk := resourceIPs_ok_of_all m.answers hsup
      rw [newAnswer, hm']
      rw [hm'] at hipsOk haddr
      rw [hipsOk]
      simp only [Bind.bind, Except.bind, Except.ok.injEq, Answer.mk.injEq]
      refine ⟨trivial, ?_, ?_⟩
      · show (ttlSecondsField a.ttl : Int) * nsPerSecond = Int.tdiv a.ttl nsPerSecond * nsPerSecond
        rw [hfield]
      · rw [haddr, hips]

/-- C7 (counterexample to the claim as stated): two cached Answers break the
unrestricted round-trip claim.  First, an Answer with TTL `2^32` seconds (a
representable Go duration, storable via `Set`) builds a record whose TTL
field wraps to 0, so parsing back yields TTL 0 s rather than the original
truncated to whole seconds.  Second, an Answer with no addresses builds an
empty record list, and parsing that response back fails (`newAnswer` rejects
a message without answers) instead of yielding the Answer. -/
theorem buildAnswers_roundTrip_counterexample :
    (buildAnswers ⟨"example.com.", 1, 1⟩ ⟨0, 4294967296 * 1000000000, [.v4 [1, 2, 3, 4]]⟩ =
        .ok [⟨⟨"example.com.", 1, 1, 0⟩, .aRes [1, 2, 3, 4]⟩] ∧
      newAnswer ⟨7, true, [⟨"example.com.", 1, 1⟩], [⟨⟨"example.com.", 1, 1, 0⟩, .aRes [1, 2, 3, 4]⟩]⟩ 0 =
        .ok ⟨0, 0, [.v4 [1, 2, 3, 4]]⟩ ∧
      (0 : Int) ≠ Int.tdiv (4294967296 * 1000000000) nsPerSecond * nsPerSecond) ∧
    (buildAnswers ⟨"example.com.", 1, 1⟩ ⟨0, 5000000000, []⟩ = .ok [] ∧
      newAnswer ⟨7, true, [⟨"example.com.", 1, 1⟩], []⟩ 0 =
        .error "no answers in DNS message") := by
  refine ⟨⟨by decide, by decide, by decide⟩, by decide, by decide⟩

/-- C7 witness: round trip for an A-type question with one address and TTL
300.5 s: the parsed-back Answer keeps the address and truncates the TTL to
300 whole seconds. -/
theorem buildAnswers_roundTrip_witness :
    newAnswer ⟨7, true, [⟨"example.com.", 1, 1⟩],
        [⟨⟨"example.com.", 1, 1, 300⟩, .aRes [1, 2, 3, 4]⟩]⟩ 0 =
      .ok ⟨0, 300 * nsPerSecond, [.v4 [1, 2, 3, 4]]⟩ := by
  obtain ⟨rs, hb, hall⟩ := buildAnswers_roundTrip ⟨"example.com.", 1, 1⟩
    ⟨123, 300500000000, [.v4 [1, 2, 3, 4]]⟩ 0 (Or.inl rfl) (by decide) (by decide)
    (by decide) (by decide)
  have hrs : rs = [⟨⟨"example.com.", 1, 1, 300⟩, .aRes [1, 2, 3, 4]⟩] := by
    rw [show buildAnswers ⟨"example.com.", 1, 1⟩ ⟨123, 300500000000, [.v4 [1, 2, 3, 4]]⟩ =
        Except.ok [⟨⟨"example.com.", 1, 1, 300⟩, .aRes [1, 2, 3, 4]⟩] from by decide] at hb
    injection hb with hb
    exact hb.symm
  subst hrs
  exact hall ⟨7, true, [⟨"example.com.", 1, 1⟩], [⟨⟨"example.com.", 1, 1, 300⟩, .aRes [1, 2, 3, 4]⟩]⟩ rfl

/-- C3 (amended): on a cache hit for a well-formed single-question query of a
supported type, `Write` synthesizes a response — the original message marked
as a response, with one address record per cached IP whose TTL field is the
Answer's TTL truncated to whole seconds and reduced modulo `2^32`, echoing
the question's name, type, and class — buffers its serialization for
subsequent reads, never dials, and returns success with a byte count equal to
the input length.  If any cached IP's family does not match the question's
type, `Write` returns an error instead, leaving the interceptor unchanged. -/
theorem cacheConn.Write_hit_spec (env : WriteEnv) (cache : questionCache) (c : cacheConn)
    (b : List Nat) (now : Int) (msg : DNSMessage) (q : DNSQuestion) (ans : Answer)
    (hu : env.unpack b = some msg)
    (hq : msg.questions = [q])
    (ht : q.qtype = typeA ∨ q.qtype = typeAAAA)
    (hl : lookupA cache.m (newQuestion q) = some ans)
    (he : ans.IsExpired now = false) :
    ((∀ ip ∈ ans.ips,
        (q.qtype = typeA → ip.is4 = true) ∧ (q.qtype = typeAAAA → ip.is6 = true)) →
      ∃ rs, buildAnswers q ans = .ok rs ∧
        rs.length = ans.ips.length ∧
        (∀ r ∈ rs, r.header = ⟨q.name, q.qtype, q.qclass, ttlSecondsField ans.ttl⟩) ∧
        ∀ packed, env.pack { msg with response := true, answers := rs } = some packed →
          cacheConn.Write env cache c b now =
            ⟨b.length, none, { c with cachedResp := some packed, cachedPos := 0 },
             { cache with hits := cache.hits + 1 }⟩) ∧
    ((∃ ip ∈ ans.ips,
        (q.qtype = typeA ∧ ip.is4 = false) ∨ (q.qtype = typeAAAA ∧ ip.is6 = false)) →
      (cacheConn.Write env cache c b now).n = 0 ∧
      (cacheConn.Write env cache c b now).err.isSome = true ∧
      (cacheConn.Write env cache c b now).conn = c) := by
  have hcond : ¬(q.qtype ≠ typeA ∧ q.qtype ≠ typeAAAA) := by
    rcases ht with h | h <;> simp [h, typeA, typeAAAA]
  have hget := (questionCache.Get_spec cache (newQuestion q) now).1 ans hl he
  constructor
  · intro hm
    rcases ht with htA | ht6
    · have h4 : ∀ ip ∈ ans.ips, ip.is4 = true := fun ip h => (hm ip h).1 htA
      have hb : buildAnswers q ans = .ok (ans.ips.map fun ip =>
          ⟨⟨q.name, q.qtype, q.qclass, ttlSecondsField ans.ttl⟩, .aRes ip.as4⟩) :=
        buildAnswersList_ok_A q ans.ttl ans.ips htA h4
      refine ⟨_, hb, by simp, ?_, ?_⟩
      · intro r hr
        rcases List.mem_map.mp hr with ⟨ip, hip, rfl⟩
        rfl
      · intro packed hp
        rw [hq] at hp
        simp [cacheConn.Write, hu, hq, hcond, hget, hb, hp]
    · have h6 : ∀ ip ∈ ans.ips, ip.is6 = true := fun ip h => (hm ip h).2 ht6
      have hb : buildAnswers q ans = .ok (ans.ips.map fun ip =>
          ⟨⟨q.name, q.qtype, q.qclass, ttlSecondsField ans.ttl⟩, .aaaaRes ip.as16⟩) :=
        buildAnswersList_ok_AAAA q ans.ttl ans.ips ht6 h6
      refine ⟨_, hb, by simp, ?_, ?_⟩
      · intro r hr
        rcases List.mem_map.mp hr with ⟨ip, hip, rfl⟩
        rfl
      · intro packed hp
        rw [hq] at hp
        simp [cacheConn.Write, hu, hq, hcond, hget, hb, hp]
  · intro hmis
    rcases ht with htA | ht6
    · have hex : ∃ ip ∈ ans.ips, ip.is4 = false := by
        rcases hmis with ⟨ip, hip, ⟨_, h4⟩ | ⟨h28, _⟩⟩
        · exact ⟨ip, hip, h4⟩
        · rw [htA] at h28
          simp [typeA, typeAAAA] at h28
      obtain ⟨e, he'⟩ := buildAnswersList_error_A q ans.ttl ans.ips htA hex
      have hb : buildAnswers q ans = .error e := he'
      refine ⟨?_, ?_, ?_⟩ <;> simp [cacheConn.Write, hu, hq, hcond, hget, hb]
    · have hex : ∃ ip ∈ ans.ips, ip.is6 = false := by
        rcases hmis with ⟨ip, hip, ⟨h1, _⟩ | ⟨_, h6⟩⟩
        · rw [ht6] at h1
          simp [typeA, typeAAAA] at h1
        · exact ⟨ip, hip, h6⟩
      obtain ⟨e, he'⟩ := buildAnswersList_error_AAAA q ans.ttl ans.ips ht6 hex
      have hb : buildAnswers q ans = .error e := he'
      refine ⟨?_, ?_, ?_⟩ <;> simp [cacheConn.Write, hu, hq, hcond, hget, hb]

/-- C3 (counterexample to the claim as stated): a hit on a cached Answer with
TTL `2^32` seconds (a representable Go duration, storable via `Set`) produces
a record whose TTL field is 0, not the TTL truncated to whole seconds
(`2^32`): the `uint32` conversion wraps. -/
theorem cacheConn.Write_hit_ttl_counterexample :
    buildAnswers ⟨"example.com.", 1, 1⟩ ⟨0, 4294967296 * 1000000000, [.v4 [1, 2, 3, 4]]⟩ =
      .ok [⟨⟨"example.com.", 1, 1, 0⟩, .aRes [1, 2, 3, 4]⟩] ∧
    Int.tdiv (4294967296 * 1000000000) nsPerSecond = 4294967296 ∧
    (0 : Int) ≠ 4294967296 := by
  refine ⟨by decide, by decide, by decide⟩

/-- C3 witness: a hit for an A query with a cached 300 s Answer synthesizes
the buffered response, dials nothing, counts a hit, and reports the full
input length written. -/
theorem cacheConn.Write_hit_spec_witness :
    cacheConn.Write
        ⟨fun _ => some ⟨7, false, [⟨"example.com.", 1, 1⟩], []⟩,
         fun _ => some [1, 2], true, fun bs => (bs.length, none)⟩
        ⟨[(⟨"example.com.", 1⟩, ⟨0, 300000000000, [.v4 [93, 184, 216, 34]]⟩)], 0, 0⟩
        initialConn [3, 4, 5] 0 =
      ⟨3, none, { initialConn with cachedResp := some [1, 2], cachedPos := 0 },
       ⟨[(⟨"example.com.", 1⟩, ⟨0, 300000000000, [.v4 [93, 184, 216, 34]]⟩)], 1, 0⟩⟩ := by
  obtain ⟨rs, hb, hlen, hhdr, happ⟩ :=
    (cacheConn.Write_hit_spec
      ⟨fun _ => some ⟨7, false, [⟨"example.com.", 1, 1⟩], []⟩,
       fun _ => some [1, 2], true, fun bs => (bs.length, none)⟩
      ⟨[(⟨"example.com.", 1⟩, ⟨0, 300000000000, [.v4 [93, 184, 216, 34]]⟩)], 0, 0⟩
      initialConn [3, 4, 5] 0
      ⟨7, false, [⟨"example.com.", 1, 1⟩], []⟩ ⟨"example.com.", 1, 1⟩
      ⟨0, 300000000000, [.v4 [93, 184, 216, 34]]⟩
      rfl rfl (Or.inl rfl) (by decide) (by decide)).1 (by decide)
  exact happ [1, 2] rfl

/-- C4 (amended): for a well-formed single-question query of an unsupported
record type, `Write` dials the real transport, still performs the cache
lookup, and — when that lookup misses — dials a second time and forwards the
write verbatim to the second connection: the dial factory is invoked twice on
this path, not at most once. -/
theorem cacheConn.Write_unsupported_spec (env : WriteEnv) (cache : questionCache) (c : cacheConn)
    (b : List Nat) (now : Int) (msg : DNSMessage) (q : DNSQuestion)
    (hu : env.unpack b = some msg) (hq : msg.questions = [q])
    (hta : q.qtype ≠ typeA) (htaaaa : q.qtype ≠ typeAAAA)
    (hd : env.dialOk = true)
    (hmiss : (cache.Get (newQuestion q) now).found = false) :
    cacheConn.Write env cache c b now =
      ⟨(env.realWrite b).1, (env.realWrite b).2,
       ⟨true, c.dialCount + 2, c.cachedResp, c.cachedPos, c.realResp,
        c.realWrites ++ [(c.dialCount + 2, b)]⟩,
       (cache.Get (newQuestion q) now).state⟩ := by
  simp [cacheConn.Write, hu, hq, hta, htaaaa, hd, hmiss, dialStep, forwardWrite]

/-- C4 (counterexample to the claim as stated): an MX-type single-question
query against an empty cache makes a fresh interceptor invoke the dial
factory twice — the claim's "at most once per interceptor instance" fails —
and the write is forwarded verbatim to the second connection. -/
theorem cacheConn.Write_double_dial_counterexample :
    (cacheConn.Write
        ⟨fun _ => some ⟨7, false, [⟨"example.com.", 15, 1⟩], []⟩,
         fun _ => none, true, fun bs => (bs.length, none)⟩
        emptyCache initialConn [3, 4, 5] 0).conn.dialCount = 2 ∧
    ¬(2 ≤ 1) ∧
    (cacheConn.Write
        ⟨fun _ => some ⟨7, false, [⟨"example.com.", 15, 1⟩], []⟩,
         fun _ => none, true, fun bs => (bs.length, none)⟩
        emptyCache initialConn [3, 4, 5] 0).conn.realWrites = [(2, [3, 4, 5])] := by
  refine ⟨by decide, by decide, by decide⟩

/-- C4 witness: concrete run of the unsupported-type path — two dials, the
write forwarded verbatim to connection 2, and a miss recorded in the store. -/
theorem cacheConn.Write_unsupported_spec_witness :
    cacheConn.Write
        ⟨fun _ => some ⟨7, false, [⟨"example.com.", 15, 1⟩], []⟩,
         fun _ => none, true, fun bs => (bs.length, none)⟩
        emptyCache initialConn [3, 4, 5] 0 =
      ⟨3, none, ⟨true, 2, none, 0, [], [(2, [3, 4, 5])]⟩, ⟨[], 0, 1⟩⟩ :=
  cacheConn.Write_unsupported_spec
    ⟨fun _ => some ⟨7, false, [⟨"example.com.", 15, 1⟩], []⟩,
     fun _ => none, true, fun bs => (bs.length, none)⟩
    emptyCache initialConn [3, 4, 5] 0
    ⟨7, false, [⟨"example.com.", 15, 1⟩], []⟩ ⟨"example.com.", 15, 1⟩
    rfl rfl (by decide) (by decide) rfl (by decide)

/-- C6: `Close` populates the Answer Store iff a real connection was dialed,
at least one byte was accumulated, the accumulated bytes parse as a message
with exactly one question, and building the Answer succeeds — at least one
answer record, every record a supported address record — with a result not
already expired.  The stored Answer is keyed by the response's single
question and has fetch time `now`, TTL taken from the first record's TTL
field, and one IP per answer record.  With no real connection, `Close` is a
no-op that succeeds; with accumulated bytes absent, it returns only the
captured close error. -/
theorem cacheConn.Close_spec (unpack : List Nat → Option DNSMessage) (closeErr : Option String)
    (cache : questionCache) (c : cacheConn) (now : Int) :
    (c.hasRealConn = false →
      cacheConn.Close unpack closeErr cache c now = ⟨none, cache, false⟩) ∧
    (c.hasRealConn = true → c.realResp = [] →
      cacheConn.Close unpack closeErr cache c now = ⟨closeErr.map wrapCloseErr, cache, false⟩) ∧
    (∀ m q a, c.hasRealConn = true → c.realResp ≠ [] → unpack c.realResp = some m →
      m.questions = [q] → newAnswer m now = .ok a → a.IsExpired now = false →
      cacheConn.Close unpack closeErr cache c now =
        ⟨closeErr.map wrapCloseErr, cache.Set (newQuestion q) a, true⟩) ∧
    ((cacheConn.Close unpack closeErr cache c now).didSet = true ↔
      c.hasRealConn = true ∧ c.realResp ≠ [] ∧
      ∃ m q a, unpack c.realResp = some m ∧ m.questions = [q] ∧
        newAnswer m now = Except.ok a ∧ a.IsExpired now = false) ∧
    ((cacheConn.Close unpack closeErr cache c now).didSet = false →
      (cacheConn.Close unpack closeErr cache c now).cache = cache) ∧
    (∀ m a, newAnswer m now = Except.ok a →
      a.fetchTime = now ∧ a.ips = m.answers.map recordAddr ∧
      (∀ r0 rs, m.answers = r0 :: rs → a.ttl = (r0.header.ttl : Int) * nsPerSecond) ∧
      m.answers ≠ [] ∧ ∀ r ∈ m.answers, supportedRecord r) ∧
    (∀ m, (∃ a, newAnswer m now = Except.ok a) ↔
      (m.answers ≠ [] ∧ ∀ r ∈ m.answers, supportedRecord r)) := by
  refine ⟨?_, ?_, ?_, ?_, ?_,
    fun m a h => newAnswer_ok_shape m now a h, fun m => newAnswer_ok_iff m now⟩
  · intro h
    simp [cacheConn.Close, h]
  · intro h1 h2
    simp [cacheConn.Close, h1, h2, joinErr]
  · intro m q a h1 h2 h3 h4 h5 h6
    obtain ⟨x, xs, hcr⟩ : ∃ x xs, c.realResp = x :: xs := by
      rcases hcr : c.realResp with _ | ⟨x, xs⟩
      · exact absurd hcr h2
      · exact ⟨x, xs, rfl⟩
    rw [hcr] at h3
    simp [cacheConn.Close, h1, hcr, h3, h4, h5, h6, joinErr]
  · cases hR : c.hasRealConn
    · simp [cacheConn.Close, hR]
    · rcases hcr : c.realResp with _ | ⟨x, xs⟩
      · simp [cacheConn.Close, hR, hcr]
      · rcases hU : unpack (x :: xs) with _ | m
        · simp [cacheConn.Close, hR, hcr, hU]
        · rcases hq : m.questions with _ | ⟨q1, _ | ⟨q2, qrest⟩⟩
          · simp [cacheConn.Close, hR, hcr, hU, hq]
          · rcases hN : newAnswer m now with e | a
            · simp [cacheConn.Close, hR, hcr, hU, hq, hN]
            · rcases hE : a.IsExpired now with _ | _
              · simp [cacheConn.Close, hR, hcr, hU, hq, hN, hE]
              · simp [cacheConn.Close, hR, hcr, hU, hq, hN, hE]
          · simp [cacheConn.Close, hR, hcr, hU, hq]
  · cases hR : c.hasRealConn
    · simp [cacheConn.Close, hR]
    · rcases hcr : c.realResp with _ | ⟨x, xs⟩
      · simp [cacheConn.Close, hR, hcr]
      · rcases hU : unpack (x :: xs) with _ | m
        · simp [cacheConn.Close, hR, hcr, hU]
        · rcases hq : m.questions with _ | ⟨q1, _ | ⟨q2, qrest⟩⟩
          · simp [cacheConn.Close, hR, hcr, hU, hq]
          · rcases hN : newAnswer m now with e | a
            · simp [cacheConn.Close, hR, hcr, hU, hq, hN]
            · rcases hE : a.IsExpired now with _ | _
              · simp [cacheConn.Close, hR, hcr, hU, hq, hN, hE]
              · simp [cacheConn.Close, hR, hcr, hU, hq, hN, hE]
          · simp [cacheConn.Close, hR, hcr, hU, hq]

/-- C6 witness: a one-question, one-A-record response accumulated from the
real connection is stored on `Close` keyed by that question, with fetch time
50, TTL 300 s, and the record's IP. -/
theorem cacheConn.Close_spec_witness :
    cacheConn.Close
        (fun _ => some ⟨7, true, [⟨"example.com.", 1, 1⟩],
          [⟨⟨"example.com.", 1, 1, 300⟩, .aRes [93, 184, 216, 34]⟩]⟩)
        none emptyCache ⟨true, 1, none, 0, [9], []⟩ 50 =
      ⟨none, emptyCache.Set ⟨"example.com.", 1⟩
        ⟨50, 300 * nsPerSecond, [.v4 [93, 184, 216, 34]]⟩, true⟩ :=
  (cacheConn.Close_spec
      (fun _ => some ⟨7, true, [⟨"example.com.", 1, 1⟩],
        [⟨⟨"example.com.", 1, 1, 300⟩, .aRes [93, 184, 216, 34]⟩]⟩)
      none emptyCache ⟨true, 1, none, 0, [9], []⟩ 50).2.2.1
    ⟨7, true, [⟨"example.com.", 1, 1⟩], [⟨⟨"example.com.", 1, 1, 300⟩, .aRes [93, 184, 216, 34]⟩]⟩
    ⟨"example.com.", 1, 1⟩ ⟨50, 300 * nsPerSecond, [.v4 [93, 184, 216, 34]]⟩
    rfl (by simp) rfl rfl (by decide) (by decide)

/-- C8 (code bug): `Get`'s eviction path is two separate critical sections —
observe under the read lock, then re-acquire the write lock and delete — and
the delete removes whatever entry is current, not the expired entry it
observed.  Concretely: the store holds an expired entry; a `Get` observes it;
a concurrent `Set` of a fresh, non-expired answer for the same key completes;
the `Get` then deletes the key, losing the completed `Set` (the interleaving
`setMid`).  In the other two interleavings the write survives. -/
theorem runGetSet_lost_write :
    Answer.IsExpired ⟨100, 1000000000000, [.v4 [9, 9, 9, 9]]⟩ 100 = false ∧
    lookupA (runGetSet ⟨[(⟨"example.com.", 1⟩, ⟨0, 5, [.v4 [1, 2, 3, 4]]⟩)], 0, 0⟩
        ⟨"example.com.", 1⟩ ⟨100, 1000000000000, [.v4 [9, 9, 9, 9]]⟩ 100 .setMid).m
      ⟨"example.com.", 1⟩ = none ∧
    lookupA (runGetSet ⟨[(⟨"example.com.", 1⟩, ⟨0, 5, [.v4 [1, 2, 3, 4]]⟩)], 0, 0⟩
        ⟨"example.com.", 1⟩ ⟨100, 1000000000000, [.v4 [9, 9, 9, 9]]⟩ 100 .setFirst).m
      ⟨"example.com.", 1⟩ = some ⟨100, 1000000000000, [.v4 [9, 9, 9, 9]]⟩ ∧
    lookupA (runGetSet ⟨[(⟨"example.com.", 1⟩, ⟨0, 5, [.v4 [1, 2, 3, 4]]⟩)], 0, 0⟩
        ⟨"example.com.", 1⟩ ⟨100, 1000000000000, [.v4 [9, 9, 9, 9]]⟩ 100 .setLast).m
      ⟨"example.com.", 1⟩ = some ⟨100, 1000000000000, [.v4 [9, 9, 9, 9]]⟩ := by
  decide

/-- C9 (amended): a cache key copies the wire question's name and type
verbatim: the name keeps whatever byte case the query used (no case
normalization) and the type is not restricted — any record type can appear in
a key.  Two questions map to the same key iff their names agree byte-for-byte
and their types agree (class is ignored). -/
theorem newQuestion_spec (p q' : DNSQuestion) :
    (newQuestion p = newQuestion q' ↔ p.name = q'.name ∧ p.qtype = q'.qtype) ∧
    (newQuestion p).fqdn = p.name ∧ (newQuestion p).qtype = p.qtype := by
  refine ⟨⟨fun h => ⟨congrArg Question.fqdn h, congrArg Question.qtype h⟩, ?_⟩, rfl, rfl⟩
  intro h
  rcases h with ⟨h1, h2⟩
  simp [newQuestion, h1, h2]

/-- C9 (counterexample to the claim as stated): two queries for the same name
differing only in letter case produce different cache keys (no case
normalization), and a stored key of unsupported record type 15 (MX) is found
by `Write`'s cache lookup — the hit counter increments — so keys are not
restricted to the two address-record types. -/
theorem newQuestion_counterexample :
    newQuestion ⟨"EXAMPLE.com.", 1, 1⟩ ≠ newQuestion ⟨"example.com.", 1, 1⟩ ∧
    (cacheConn.Write
        ⟨fun _ => some ⟨7, false, [⟨"mail.example.com.", 15, 1⟩], []⟩,
         fun _ => some [9], true, fun bs => (bs.length, none)⟩
        ⟨[(⟨"mail.example.com.", 15⟩, ⟨0, 1000000000000, []⟩)], 0, 0⟩
        initialConn [3] 0).cache.hits = 1 := by
  decide

/-- C9 witness: questions agreeing on name and type map to the same key even
when their classes differ and the type (15) is not an address type. -/
theorem newQuestion_spec_witness :
    newQuestion ⟨"example.com.", 15, 1⟩ = newQuestion ⟨"example.com.", 15, 2⟩ :=
  (newQuestion_spec ⟨"example.com.", 15, 1⟩ ⟨"example.com.", 15, 2⟩).1.mpr ⟨rfl, rfl⟩

/-- C5 (amended): after a cache-miss `Write` (real connection present, no
buffered response), `Read` delegates to the real transport and propagates its
error unchanged; the bytes of an error-free read are appended to the
accumulation buffer, but when the read also returns an error the bytes it
delivered are handed to the caller without being appended. -/
theorem cacheConn.Read_miss_spec (realRead : List Nat × Option String) (bufCap : Nat)
    (c : cacheConn) (hc : c.cachedResp = none) (hr : c.hasRealConn = true) :
    (realRead.2 = none →
      cacheConn.Read realRead bufCap c =
        ⟨realRead.1.length, realRead.1, none, { c with realResp := c.realResp ++ realRead.1 }⟩) ∧
    (∀ e, realRead.2 = some e →
      cacheConn.Read realRead bufCap c = ⟨realRead.1.length, realRead.1, some e, c⟩) := by
  constructor
  · intro h
    simp [cacheConn.Read, hc, hr, h]
  · intro e h
    simp [cacheConn.Read, hc, hr, h]

/-- C5 (counterexample to the claim as stated): a real-transport read that
delivers 3 bytes together with an error propagates the error, but those bytes
are not appended to the accumulation buffer (`realResp` stays empty) — the
claim says every byte read is appended. -/
theorem cacheConn.Read_error_counterexample :
    cacheConn.Read ([7, 7, 7], some "timeout") 512 ⟨true, 1, none, 0, [], []⟩ =
      ⟨3, [7, 7, 7], some "timeout", ⟨true, 1, none, 0, [], []⟩⟩ ∧
    (cacheConn.Read ([7, 7, 7], some "timeout") 512 ⟨true, 1, none, 0, [], []⟩).conn.realResp = [] := by
  decide

/-- C5 witness: an error-free read of two bytes appends them to the
accumulation buffer behind previously accumulated bytes. -/
theorem cacheConn.Read_miss_spec_witness :
    cacheConn.Read ([7, 7], none) 512 ⟨true, 1, none, 0, [5], []⟩ =
      ⟨2, [7, 7], none, ⟨true, 1, none, 0, [5, 7, 7], []⟩⟩ :=
  (cacheConn.Read_miss_spec ([7, 7], none) 512 ⟨true, 1, none, 0, [5], []⟩ rfl rfl).1 rfl

end DnsCache
